import Mathlib

/-!
# Verification of the tool-search ranking engine

Shallow embedding of the ranking core of the `tool-search-mcp` repository:
the BM25 lexical ranker (`src/search/bm25.ts`, re-exported through
`src/rewriter.ts`), the regex/heuristic ranker (`src/search/regex.ts`),
the embedding ranker (`src/search/embedding.ts`), the embedding text
formatter (`src/search/formats.ts`) and the unified search router
(`src/search/index.ts`).

Modelling conventions:
* JavaScript numbers are modelled as rationals (`ℚ`); transcendental
  functions the code takes from `Math` (`Math.log`, `Math.sqrt`) are
  passed in as explicit function parameters so every definition stays
  computable.
* JavaScript strings are modelled as Lean `String` / `List Char`;
  lengths count characters.
* `Map` objects keyed by strings are modelled as functions
  `String → _` returning the `get(..) || default` view of the map.
* `Array.prototype.sort` with the comparator `(a, b) => b.score - a.score`
  is modelled by an index-decorated stable insertion sort: ECMA-262
  requires `sort` to be stable, and a stable sort by score descending
  is exactly a sort by the lexicographic order (score descending,
  original position ascending) once original positions are attached.
* `async` methods that can reject are modelled with `Except String`.
-/

namespace ToolSearch

/-- Model of a value in a tool's `input_schema.properties` record:
either a non-object JSON primitive, or an object that may carry a
string `description` field (the only field the code reads). -/
inductive PropValue where
  | prim : PropValue
  | obj : Option String → PropValue
deriving DecidableEq

/-- `ToolDefinition` from `src/search/types.ts`: name, description and
the `input_schema` object (`properties` as an ordered key/value record,
optional `required` list). -/
structure ToolDefinition where
  name : String
  description : String
  properties : List (String × PropValue)
  required : List String
deriving DecidableEq

/-- `SearchResult` from `src/search/types.ts`. -/
structure SearchResult where
  name : String
  description : String
  score : ℚ
deriving DecidableEq

/-- `SearchMethod` from `src/search/types.ts`. -/
inductive SearchMethod where
  | embedding : SearchMethod
  | bm25 : SearchMethod
  | regex : SearchMethod
deriving DecidableEq

/-! ## Stable sorting by descending score

The engines all run `results.sort((a, b) => b.score - a.score)` on an
array built in corpus order.  We attach the 0-based corpus position to
each result and use a stable insertion sort; stability means an element
is inserted after every strictly greater score and before any equal
score. -/

/-- Attach consecutive indices (starting at `i`) to a result list. -/
def withIdx : ℕ → List SearchResult → List (ℕ × SearchResult)
  | _, [] => []
  | i, r :: rs => (i, r) :: withIdx (i + 1) rs

/-- Insert `x` into a score-descending list: walk past strictly greater
scores, stop at the first element whose score is `≤ x`'s (so `x` lands
before any tie, which is the stable position for an element that came
earlier in the input). -/
def insertDesc (x : ℕ × SearchResult) : List (ℕ × SearchResult) → List (ℕ × SearchResult)
  | [] => [x]
  | y :: ys => if x.2.score < y.2.score then y :: insertDesc x ys else x :: y :: ys

/-- Stable sort by score descending, modelling the JavaScript call
`results.sort((a, b) => b.score - a.score)` (ECMA-262 guarantees
`Array.prototype.sort` is stable). -/
def stableSortDesc : List (ℕ × SearchResult) → List (ℕ × SearchResult)
  | [] => []
  | x :: xs => insertDesc x (stableSortDesc xs)

/-- The order the sorted output satisfies: score strictly greater, or
equal score and earlier original position. -/
def rankLE (a b : ℕ × SearchResult) : Prop :=
  b.2.score < a.2.score ∨ (a.2.score = b.2.score ∧ a.1 < b.1)

instance : DecidableRel rankLE := fun a b => by
  unfold rankLE
  infer_instance

/-- The ranked (index-decorated, stably sorted) view of a result array. -/
def rankResults (rs : List SearchResult) : List (ℕ × SearchResult) :=
  stableSortDesc (withIdx 0 rs)

/-- `results.sort((a, b) => b.score - a.score)` itself: rank, then drop
the indices again. -/
def jsSortDesc (rs : List SearchResult) : List SearchResult :=
  (rankResults rs).map Prod.snd

/-! ## Shared configuration type (`SearchEngineConfig`, src/search/types.ts)

The nested optional `bm25: {k1?, b?}` record is flattened into two
optional fields; an absent nested record behaves exactly like both
fields absent (the merge `{...params, ...config.bm25}` then changes
nothing). -/

/-- `EmbeddingFormat` from `src/search/types.ts`. -/
inductive EmbeddingFormat where
  | minimal : EmbeddingFormat
  | standard : EmbeddingFormat
  | rich : EmbeddingFormat
  | verbose : EmbeddingFormat
  | structured : EmbeddingFormat
deriving DecidableEq

/-- `SearchEngineConfig` from `src/search/types.ts`. -/
structure SearchEngineConfig where
  model : Option String
  format : Option EmbeddingFormat
  k1 : Option ℚ
  b : Option ℚ
deriving DecidableEq

/-! ## BM25 engine (`BM25SearchEngine`, src/search/bm25.ts)

`tokenize` lowercases, turns `_`/`-` into spaces, turns everything that
is not `[A-Za-z0-9_\s]` into spaces, splits on whitespace and keeps
tokens longer than one character.  After the two replacements the
characters that can appear inside a token are exactly ASCII letters and
digits, so tokens are the maximal runs of (lowercased) ASCII
alphanumeric characters. -/

/-- A character that survives BM25 tokenization: ASCII letter or digit
(`_` and `-` were already replaced by spaces, every other non-word
non-space character is replaced by a space). -/
def isTokenChar (c : Char) : Bool := c.isAlpha || c.isDigit

/-- Split a character list into the maximal runs of characters
satisfying `keep` (the accumulator holds the current run reversed). -/
def splitRunsAux (keep : Char → Bool) : List Char → List Char → List (List Char)
  | [], acc => if acc.isEmpty then [] else [acc.reverse]
  | c :: cs, acc =>
    if keep c then splitRunsAux keep cs (c :: acc)
    else if acc.isEmpty then splitRunsAux keep cs []
    else acc.reverse :: splitRunsAux keep cs []

/-- `BM25SearchEngine.tokenize`. -/
def tokenize (text : String) : List String :=
  ((splitRunsAux isTokenChar (text.data.map Char.toLower) []).filter
    (fun t => 1 < t.length)).map String.mk

/-- `name.replace(/_/g, " ")`. -/
def spacedName (s : String) : String :=
  String.mk (s.data.map (fun c => if c = '_' then ' ' else c))

/-- `Array.prototype.join(sep)`. -/
def joinSep (sep : String) : List String → String
  | [] => ""
  | [x] => x
  | x :: y :: rest => x ++ sep ++ joinSep sep (y :: rest)

/-- `BM25SearchEngine.buildDocumentText`: spaced name, raw name,
description, all parameter keys, then per property its description (when
the value is an object carrying one) followed by its key again. -/
def buildDocumentText (tool : ToolDefinition) : String :=
  joinSep " "
    ([spacedName tool.name, tool.name, tool.description]
      ++ tool.properties.map Prod.fst
      ++ (tool.properties.map (fun kv =>
            (match kv.2 with
              | PropValue.obj (some d) => [d]
              | _ => []) ++ [kv.1])).flatten)

/-- `IndexedDocument` from src/search/bm25.ts.  `termFrequencies` is the
`get(term) || 0` view of the term-frequency `Map`. -/
structure IndexedDocument where
  tool : ToolDefinition
  tokens : List String
  termFrequencies : String → ℕ
  length : ℕ

/-- `BM25SearchEngine.calculateScore`: sum over the query tokens; a term
with zero frequency in the document is skipped; otherwise add
`idf * (tf*(k1+1)) / (tf + k1*(1 - b + b*docLen/avgDocLen))`.  The loop
accumulator is replaced by a right fold, which computes the same sum. -/
def calculateScore (k1 b avgDocLength : ℚ) (idf : String → ℚ)
    (doc : IndexedDocument) : List String → ℚ
  | [] => 0
  | t :: ts =>
    (if doc.termFrequencies t = 0 then 0
     else idf t * (((doc.termFrequencies t : ℚ) * (k1 + 1)) /
       ((doc.termFrequencies t : ℚ)
         + k1 * (1 - b + b * (doc.length : ℚ) / avgDocLength))))
    + calculateScore k1 b avgDocLength idf doc ts

/-- Number of indexed documents whose token list contains `t`
(the `termDocCounts` map built in `calculateIDF`). -/
def countDocsContaining (t : String) (docs : List IndexedDocument) : ℕ :=
  (docs.filter (fun d => d.tokens.contains t)).length

/-- `BM25SearchEngine.calculateIDF` read through `idf.get(term) || 0`:
the map only holds terms occurring in at least one document, so a term
with document frequency 0 reads as 0. -/
def calculateIDF (log : ℚ → ℚ) (docs : List IndexedDocument) : String → ℚ :=
  fun t =>
    let df := countDocsContaining t docs
    if df = 0 then 0
    else log (((docs.length : ℚ) - (df : ℚ) + 1/2) / ((df : ℚ) + 1/2) + 1)

/-- The mutable fields of `BM25SearchEngine`. -/
structure BM25State where
  k1 : ℚ
  b : ℚ
  documents : List IndexedDocument
  idf : String → ℚ
  avgDocLength : ℚ
  initialized : Bool
  tools : List ToolDefinition

/-- Field values of a freshly constructed `BM25SearchEngine`
(`k1 = 1.5`, `b = 0.75`, empty index). -/
def bm25Empty : BM25State :=
  { k1 := 3/2, b := 3/4, documents := [], idf := fun _ => 0,
    avgDocLength := 0, initialized := false, tools := [] }

/-- One indexed document as built inside `BM25SearchEngine.initialize`. -/
def mkIndexedDocument (tool : ToolDefinition) : IndexedDocument :=
  let tokens := tokenize (buildDocumentText tool)
  { tool := tool, tokens := tokens,
    termFrequencies := fun t => tokens.count t, length := tokens.length }

/-- `BM25SearchEngine.initialize`: merge `config.bm25` into the current
parameters, index every tool, set
`avgDocLength = totalLength / max(N, 1)`, compute the IDF map and mark
the engine initialized. -/
def bm25Initialize (log : ℚ → ℚ) (s : BM25State) (tools : List ToolDefinition)
    (config : Option SearchEngineConfig) : BM25State :=
  let k1 := match config with | none => s.k1 | some c => c.k1.getD s.k1
  let b := match config with | none => s.b | some c => c.b.getD s.b
  let documents := tools.map mkIndexedDocument
  let totalLength : ℕ := (documents.map (fun d => d.length)).sum
  { k1 := k1, b := b, documents := documents,
    idf := calculateIDF log documents,
    avgDocLength := (totalLength : ℚ) / ((max documents.length 1 : ℕ) : ℚ),
    initialized := true, tools := tools }

/-- `BM25SearchEngine.reload`: clear the index and re-run `initialize`
(the parameters of the engine are kept and re-merged). -/
def bm25Reload (log : ℚ → ℚ) (s : BM25State) (tools : List ToolDefinition)
    (config : Option SearchEngineConfig) : BM25State :=
  bm25Initialize log
    { s with documents := [], idf := fun _ => 0, initialized := false }
    tools config

/-- The per-document results array built inside `BM25SearchEngine.search`,
in corpus order. -/
def bm25AllResults (s : BM25State) (query : String) : List SearchResult :=
  s.documents.map (fun d =>
    { name := d.tool.name, description := d.tool.description,
      score := calculateScore s.k1 s.b s.avgDocLength s.idf d (tokenize query) })

/-- The ranked (sorted, index-decorated) result list of a BM25 search. -/
def bm25Ranked (s : BM25State) (query : String) : List (ℕ × SearchResult) :=
  rankResults (bm25AllResults s query)

/-- `BM25SearchEngine.search`: throws when not initialized, else sorts
by score descending (stable) and returns the first `topK`. -/
def bm25Search (s : BM25State) (query : String) (topK : ℕ) :
    Except String (List SearchResult) :=
  if s.initialized then
    Except.ok (((bm25Ranked s query).map Prod.snd).take topK)
  else
    Except.error "BM25 engine not initialized. Call initialize() first."

/-! ### Spec-side BM25 score (for the refinement claim C1)

These definitions follow the specification's words: documents are the
token lists, `df` is the number of documents containing the term,
`idf(term) = ln((N - df + 0.5)/(df + 0.5) + 1)`, and the score is the
sum over the query's tokens with absent terms contributing zero. -/

/-- Spec: `df` = number of documents containing the term. -/
def specDf (t : String) (docs : List (List String)) : ℕ :=
  (docs.filter (fun d => d.contains t)).length

/-- Spec: `idf(term) = ln((N - df + 0.5)/(df + 0.5) + 1)`. -/
def specIdf (log : ℚ → ℚ) (n df : ℕ) : ℚ :=
  log (((n : ℚ) - (df : ℚ) + 1/2) / ((df : ℚ) + 1/2) + 1)

/-- Spec: one query term's contribution,
`idf(term) * (tf*(k1+1)) / (tf + k1*(1 - b + b*docLen/avgDocLen))`,
zero when the term is absent from the document. -/
def bm25SpecTermScore (log : ℚ → ℚ) (k1 b avg : ℚ) (docs : List (List String))
    (docTokens : List String) (t : String) : ℚ :=
  let tf := docTokens.count t
  if tf = 0 then 0
  else specIdf log docs.length (specDf t docs) *
    (((tf : ℚ) * (k1 + 1)) /
      ((tf : ℚ) + k1 * (1 - b + b * (docTokens.length : ℚ) / avg)))

/-- Spec: the document score is the sum of the term contributions over
the query's tokens. -/
def bm25SpecScore (log : ℚ → ℚ) (k1 b avg : ℚ) (docs : List (List String))
    (docTokens : List String) (queryTokens : List String) : ℚ :=
  (queryTokens.map (bm25SpecTermScore log k1 b avg docs docTokens)).sum

/-! ## Regex / heuristic engine (`RegexSearchEngine`, src/search/regex.ts)

Strings for matching are handled as `List Char`.  The JavaScript `\s`
and `\w` classes are modelled on their ASCII range (the only range the
repository's corpus and queries use). -/

/-- JavaScript `\s` (ASCII part): space, tab, LF, VT, FF, CR. -/
def isSpaceChar (c : Char) : Bool :=
  c = ' ' || c = '\t' || c = '\n' || c = '\x0b' || c = '\x0c' || c = '\r'

/-- JavaScript `\w` (ASCII): letters, digits, underscore. -/
def isWordChar (c : Char) : Bool := c.isAlpha || c.isDigit || c = '_'

/-- `toLowerCase()` to a character list. -/
def strLower (s : String) : List Char := s.data.map Char.toLower

/-- `split(/\s+/).filter(w => w.length > 1)`: maximal runs of non-space
characters longer than one character (the empty leading piece `split`
can produce is removed by the same filter). -/
def splitWords (s : List Char) : List (List Char) :=
  (splitRunsAux (fun c => !isSpaceChar c) s []).filter (fun w => 1 < w.length)

/-- `replace(/\s+/g, "_")`: each maximal whitespace run becomes one
underscore (the flag records whether the previous character was part of
a whitespace run). -/
def collapseSpacesAux : Bool → List Char → List Char
  | _, [] => []
  | prevSpace, c :: cs =>
    if isSpaceChar c then
      if prevSpace then collapseSpacesAux true cs
      else '_' :: collapseSpacesAux true cs
    else c :: collapseSpacesAux false cs

/-- `queryLower.replace(/\s+/g, "_")`. -/
def collapseSpaces (s : List Char) : List Char := collapseSpacesAux false s

/-- `haystack.includes(needle)`: substring test. -/
def containsSub (needle : List Char) : List Char → Bool
  | [] => needle.isEmpty
  | c :: cs => needle.isPrefixOf (c :: cs) || containsSub needle cs

/-- Word/non-word class of an optional character; out-of-string
positions count as non-word for `\b`. -/
def wordness : Option Char → Bool
  | none => false
  | some c => isWordChar c

/-- Count the matches of `new RegExp("\\b" + escaped(w) + "\\b", "gi")`
in `s`: non-overlapping occurrences of the literal `w` (both sides
already lowercased) with a word boundary on each side, scanning left to
right and resuming after each match (`lastIndex` semantics).  `prev` is
the character just before the current position; the fuel starts at the
length of `s` and bounds the recursion. -/
def countWordBoundaryAux (w : List Char) : ℕ → Option Char → List Char → ℕ
  | 0, _, _ => 0
  | _ + 1, _, [] => 0
  | fuel + 1, prev, c :: cs =>
    if w.isPrefixOf (c :: cs)
        && (wordness prev != wordness w.head?)
        && (wordness w.getLast? != wordness ((c :: cs).drop w.length).head?) then
      1 + countWordBoundaryAux w fuel w.getLast? ((c :: cs).drop w.length)
    else countWordBoundaryAux w fuel (some c) cs

/-- Number of word-boundary matches of `w` inside `s`. -/
def countWordBoundary (w s : List Char) : ℕ :=
  countWordBoundaryAux w s.length none s

/-- One indexed document of the regex engine. -/
structure RegexDoc where
  tool : ToolDefinition
  searchText : List Char
  nameParts : List (List Char)

/-- `RegexSearchEngine.buildSearchText`: raw name, spaced name,
description, parameter keys, then the property descriptions (objects
carrying one only), joined and lowercased. -/
def buildSearchText (tool : ToolDefinition) : List Char :=
  strLower (joinSep " "
    ([tool.name, spacedName tool.name, tool.description]
      ++ tool.properties.map Prod.fst
      ++ tool.properties.filterMap (fun kv =>
           match kv.2 with
           | PropValue.obj (some d) => some d
           | _ => none)))

/-- `RegexSearchEngine.extractNameParts`: lowercase, split on every
`_` or `-`, drop empty pieces — i.e. the maximal runs of characters
that are neither `_` nor `-`. -/
def extractNameParts (name : String) : List (List Char) :=
  splitRunsAux (fun c => !(c = '_' || c = '-')) (strLower name) []

/-- Name-part contributions of one query word: per name part exactly one
of +20 (equal), +10 (name part contains the word), +5 (word contains the
name part), 0. -/
def wordNamePartsScore (word : List Char) (nameParts : List (List Char)) : ℕ :=
  (nameParts.map (fun np =>
    if np = word then 20
    else if containsSub word np then 10
    else if containsSub np word then 5
    else 0)).sum

/-- All contributions of one query word except the description-prefix
bonus: name parts, 3 per word-boundary match, +1 for a plain substring
hit. -/
def wordScore (doc : RegexDoc) (word : List Char) : ℕ :=
  wordNamePartsScore word doc.nameParts
    + 3 * countWordBoundary word doc.searchText
    + (if containsSub word doc.searchText then 1 else 0)

/-- The lowercased query words of `RegexSearchEngine.calculateScore`. -/
def regexQueryWords (query : String) : List (List Char) :=
  splitWords (strLower query)

/-- The integer accumulator of `RegexSearchEngine.calculateScore`:
exact-name bonus, per-word contributions, description-prefix bonus. -/
def regexRawScore (doc : RegexDoc) (query : String) : ℕ :=
  (if strLower doc.tool.name = collapseSpaces (strLower query) then 100 else 0)
  + ((regexQueryWords query).map (wordScore doc)).sum
  + ((regexQueryWords query).map (fun w =>
       if w.isPrefixOf (strLower doc.tool.description) then 5 else 0)).sum

/-- `RegexSearchEngine.calculateScore`: the accumulated score divided by
`max(queryWords.length, 1)`. -/
def regexCalculateScore (doc : RegexDoc) (query : String) : ℚ :=
  (regexRawScore doc query : ℚ) / ((max (regexQueryWords query).length 1 : ℕ) : ℚ)

/-- The mutable fields of `RegexSearchEngine`. -/
structure RegexState where
  documents : List RegexDoc
  initialized : Bool
  tools : List ToolDefinition

/-- One document as built in `RegexSearchEngine.initialize`. -/
def regexDocOf (tool : ToolDefinition) : RegexDoc :=
  { tool := tool, searchText := buildSearchText tool,
    nameParts := extractNameParts tool.name }

/-- `RegexSearchEngine.initialize`. -/
def regexInitialize (tools : List ToolDefinition) : RegexState :=
  { documents := tools.map regexDocOf, initialized := true, tools := tools }

/-- `RegexSearchEngine.reload`: clear, then re-initialize. -/
def regexReload (_s : RegexState) (tools : List ToolDefinition) : RegexState :=
  regexInitialize tools

/-- The per-document results array built inside
`RegexSearchEngine.search`, in corpus order. -/
def regexAllResults (s : RegexState) (query : String) : List SearchResult :=
  s.documents.map (fun d =>
    { name := d.tool.name, description := d.tool.description,
      score := regexCalculateScore d query })

/-- The ranked result list of a regex search: keep positive scores and
sort them (stable); if nothing scored positive, fall back to the whole
corpus-order list. -/
def regexRanked (s : RegexState) (query : String) : List (ℕ × SearchResult) :=
  let withI := withIdx 0 (regexAllResults s query)
  let filtered := withI.filter (fun p => decide (0 < p.2.score))
  if filtered.isEmpty then withI else stableSortDesc filtered

/-- `RegexSearchEngine.search`. -/
def regexSearch (s : RegexState) (query : String) (topK : ℕ) :
    Except String (List SearchResult) :=
  if s.initialized then
    Except.ok (((regexRanked s query).map Prod.snd).take topK)
  else
    Except.error "Regex engine not initialized. Call initialize() first."

/-! ## Embedding formats (src/search/formats.ts) -/

/-- `formatMinimal`. -/
def formatMinimal (tool : ToolDefinition) : String := tool.description

/-- `formatStandard`. -/
def formatStandard (tool : ToolDefinition) : String :=
  spacedName tool.name ++ ": " ++ tool.description

/-- The shared head of `formatRich` / `formatVerbose`:
`` `${nameParts} - ${tool.name}: ${tool.description}` ``. -/
def formatBase (tool : ToolDefinition) : String :=
  spacedName tool.name ++ " - " ++ tool.name ++ ": " ++ tool.description

/-- `formatRich`: the base text plus, when the comma-joined key list is
a non-empty (truthy) string, `. Parameters: ` and the keys. -/
def formatRich (tool : ToolDefinition) : String :=
  let paramNames := joinSep ", " (tool.properties.map Prod.fst)
  if paramNames = "" then formatBase tool
  else formatBase tool ++ ". Parameters: " ++ paramNames

/-- The parameter renderings of `formatVerbose`: non-object property
values are skipped; an object with a truthy description renders as
`key: description`, otherwise just the key. -/
def verboseParamEntries (tool : ToolDefinition) : List String :=
  tool.properties.filterMap (fun kv =>
    match kv.2 with
    | PropValue.prim => none
    | PropValue.obj none => some kv.1
    | PropValue.obj (some d) => some (if d = "" then kv.1 else kv.1 ++ ": " ++ d))

/-- `formatVerbose`: the base text plus, when at least one parameter was
rendered, `. Parameters: ` and the `; `-joined renderings. -/
def formatVerbose (tool : ToolDefinition) : String :=
  let entries := verboseParamEntries tool
  if entries.isEmpty then formatBase tool
  else formatBase tool ++ ". Parameters: " ++ joinSep "; " entries

/-- `formatStructured`: labeled multi-line block with `*` marking
required parameters. -/
def formatStructured (tool : ToolDefinition) : String :=
  let params := tool.properties.map (fun kv =>
    let d := match kv.2 with
      | PropValue.obj (some d) => d
      | _ => ""
    "  " ++ kv.1 ++ (if tool.required.contains kv.1 then "*" else "") ++ ": " ++ d)
  let base := "Tool: " ++ tool.name ++ "\nDescription: " ++ tool.description
  if params.isEmpty then base
  else base ++ "\nParameters:\n" ++ joinSep "\n" params

/-- `formatToolForEmbedding` (the `default` switch arm is unreachable:
the format type is a closed union). -/
def formatToolForEmbedding (tool : ToolDefinition) : EmbeddingFormat → String
  | EmbeddingFormat.minimal => formatMinimal tool
  | EmbeddingFormat.standard => formatStandard tool
  | EmbeddingFormat.rich => formatRich tool
  | EmbeddingFormat.verbose => formatVerbose tool
  | EmbeddingFormat.structured => formatStructured tool

/-- `estimateFormatTokens`: `Math.ceil(text.length / 4)`. -/
def estimateFormatTokens (tool : ToolDefinition) (format : EmbeddingFormat) : ℕ :=
  ((formatToolForEmbedding tool format).length + 3) / 4

/-! ## Embedding engine (`EmbeddingSearchEngine`, src/search/embedding.ts)

The Ollama embedding provider is an external collaborator; its answers
enter the model as explicit `Except`-valued arguments (a rejected
provider call is an `error`).  `Math.sqrt` is passed in as a function
parameter `sqrt`. -/

/-- The single loop of `cosineSimilarity` accumulates `Σ aᵢ·bᵢ`; the two
norms are the same loop applied to `(a, a)` and `(b, b)`. -/
def dotProduct : List ℚ → List ℚ → ℚ
  | [], _ => 0
  | _, [] => 0
  | x :: xs, y :: ys => x * y + dotProduct xs ys

/-- `EmbeddingSearchEngine.cosineSimilarity`: throws on a length
mismatch; returns 0 when the denominator `√normA·√normB` is 0, else
`dot / (√normA·√normB)`. -/
def cosineSimilarity (sqrt : ℚ → ℚ) (a b : List ℚ) : Except String ℚ :=
  if a.length = b.length then
    let dot := dotProduct a b
    let normA := dotProduct a a
    let normB := dotProduct b b
    let denominator := sqrt normA * sqrt normB
    Except.ok (if denominator = 0 then 0 else dot / denominator)
  else Except.error "Vectors must have the same length"

/-- `IndexedTool` from src/search/embedding.ts. -/
structure IndexedTool where
  tool : ToolDefinition
  embedding : List ℚ
  formattedText : String

/-- The mutable fields of `EmbeddingSearchEngine`. -/
structure EmbeddingState where
  indexedTools : List IndexedTool
  tools : List ToolDefinition
  initialized : Bool
  currentModel : String
  currentFormat : EmbeddingFormat

/-- `EmbeddingSearchEngine.initialize`: store the tools and the merged
model/format first, then index one `(tool, vector, text)` triple per
tool from the provider's batch answer (order-preserving contract, one
vector per input text).  When the provider call rejects, the method
throws with the fields assigned before the `await` already updated. -/
def embeddingInitialize (s : EmbeddingState) (tools : List ToolDefinition)
    (config : Option SearchEngineConfig)
    (embedResult : Except String (List (List ℚ))) : EmbeddingState × Option String :=
  let model := match config with
    | none => s.currentModel
    | some c => c.model.getD s.currentModel
  let format := match config with
    | none => s.currentFormat
    | some c => c.format.getD s.currentFormat
  match embedResult with
  | Except.error e =>
    ({ s with tools := tools, currentModel := model, currentFormat := format }, some e)
  | Except.ok embeds =>
    ({ indexedTools := (tools.zip embeds).map (fun te =>
         { tool := te.1, embedding := te.2,
           formattedText := formatToolForEmbedding te.1 format }),
       tools := tools, initialized := true,
       currentModel := model, currentFormat := format }, none)

/-- `EmbeddingSearchEngine.reload`: clear the index, drop readiness,
then re-run `initialize`. -/
def embeddingReload (s : EmbeddingState) (tools : List ToolDefinition)
    (config : Option SearchEngineConfig)
    (embedResult : Except String (List (List ℚ))) : EmbeddingState × Option String :=
  embeddingInitialize { s with indexedTools := [], initialized := false }
    tools config embedResult

/-- The `results` array of `EmbeddingSearchEngine.search`, built in
corpus order; the first cosine length-mismatch aborts the whole map. -/
def embeddingScores (sqrt : ℚ → ℚ) (queryEmbedding : List ℚ) :
    List IndexedTool → Except String (List SearchResult)
  | [] => Except.ok []
  | it :: its =>
    match cosineSimilarity sqrt queryEmbedding it.embedding with
    | Except.error e => Except.error e
    | Except.ok sc =>
      match embeddingScores sqrt queryEmbedding its with
      | Except.error e => Except.error e
      | Except.ok rest =>
        Except.ok ({ name := it.tool.name, description := it.tool.description,
                     score := sc } :: rest)

/-- `EmbeddingSearchEngine.search`: not-initialized guard, embed the
query (provider answer passed in), score every indexed tool, sort by
score descending (stable) and return the first `topK`. -/
def embeddingSearch (sqrt : ℚ → ℚ) (s : EmbeddingState)
    (queryEmbedResult : Except String (List ℚ)) (topK : ℕ) :
    Except String (List SearchResult) :=
  if s.initialized then
    match queryEmbedResult with
    | Except.error e => Except.error e
    | Except.ok qe =>
      match embeddingScores sqrt qe s.indexedTools with
      | Except.error e => Except.error e
      | Except.ok results =>
        Except.ok (((rankResults results).map Prod.snd).take topK)
  else
    Except.error "Embedding engine not initialized. Call initialize() first."

/-! ## Search router (`UnifiedSearchService`, src/search/index.ts)

The registry `Map<SearchMethod, SearchEngine>` is modelled by one
optional engine state per method (method names are a closed union and
each engine class carries a fixed method).  Wall-clock timing (`took`)
is not modelled; the response keeps the results and the resolved
method. -/

/-- `SearchRequest` from src/search/types.ts. -/
structure SearchRequest where
  query : String
  topK : Option ℕ
  method : Option SearchMethod

/-- The mutable fields of `UnifiedSearchService`.  A fresh service has
no engines, default method `embedding` and no tools. -/
structure RouterState where
  bm25Engine : Option BM25State
  regexEngine : Option RegexState
  embeddingEngine : Option EmbeddingState
  defaultMethod : SearchMethod
  tools : List ToolDefinition

/-- `const topK = request.topK || 5`: an absent topK and the falsy
`topK = 0` both resolve to the default 5. -/
def routerResolveTopK (req : SearchRequest) : ℕ :=
  match req.topK with
  | none => 5
  | some k => if k = 0 then 5 else k

/-- `UnifiedSearchService.search`: resolve the method (explicit or
default) and topK, fail when the method is not registered or the engine
not ready, else dispatch to the engine's `search`.  The query-embedding
provider answer is passed in for the embedding branch. -/
def routerSearch (sqrt : ℚ → ℚ) (s : RouterState) (req : SearchRequest)
    (queryEmbedResult : Except String (List ℚ)) :
    Except String (List SearchResult × SearchMethod) :=
  let method := req.method.getD s.defaultMethod
  let topK := routerResolveTopK req
  match method with
  | SearchMethod.bm25 =>
    match s.bm25Engine with
    | none => Except.error "Search method is not registered"
    | some e =>
      if e.initialized then (bm25Search e req.query topK).map (fun rs => (rs, method))
      else Except.error "Search engine is not initialized"
  | SearchMethod.regex =>
    match s.regexEngine with
    | none => Except.error "Search method is not registered"
    | some e =>
      if e.initialized then (regexSearch e req.query topK).map (fun rs => (rs, method))
      else Except.error "Search engine is not initialized"
  | SearchMethod.embedding =>
    match s.embeddingEngine with
    | none => Except.error "Search method is not registered"
    | some e =>
      if e.initialized then
        (embeddingSearch sqrt e queryEmbedResult topK).map (fun rs => (rs, method))
      else Except.error "Search engine is not initialized"

/-- `UnifiedSearchService.initialize`: assign `this.tools = tools`
first, then fan the call out to every registered engine
(`Promise.all`); a rejecting embedding provider surfaces as the
returned error while the assignment to `tools` stays in place.  The
BM25 and regex initializers cannot reject. -/
def routerInitialize (log : ℚ → ℚ) (s : RouterState) (tools : List ToolDefinition)
    (config : Option SearchEngineConfig)
    (embedResult : Except String (List (List ℚ))) : RouterState × Option String :=
  let bm25' := s.bm25Engine.map (fun e => bm25Initialize log e tools config)
  let regex' := s.regexEngine.map (fun _ => regexInitialize tools)
  match s.embeddingEngine with
  | none =>
    ({ s with tools := tools, bm25Engine := bm25', regexEngine := regex' }, none)
  | some e =>
    let r := embeddingInitialize e tools config embedResult
    ({ s with
        tools := tools, bm25Engine := bm25', regexEngine := regex',
        embeddingEngine := some r.1 }, r.2)

/-- `UnifiedSearchService.reload`: identical shape, dispatching to the
engines' `reload`. -/
def routerReload (log : ℚ → ℚ) (s : RouterState) (tools : List ToolDefinition)
    (config : Option SearchEngineConfig)
    (embedResult : Except String (List (List ℚ))) : RouterState × Option String :=
  let bm25' := s.bm25Engine.map (fun e => bm25Reload log e tools config)
  let regex' := s.regexEngine.map (fun e => regexReload e tools)
  match s.embeddingEngine with
  | none =>
    ({ s with tools := tools, bm25Engine := bm25', regexEngine := regex' }, none)
  | some e =>
    let r := embeddingReload e tools config embedResult
    ({ s with
        tools := tools, bm25Engine := bm25', regexEngine := regex',
        embeddingEngine := some r.1 }, r.2)

/-- `UnifiedSearchService.getAllTools`. -/
def getAllTools (s : RouterState) : List ToolDefinition := s.tools

/-- `UnifiedSearchService.getToolsCount`. -/
def getToolsCount (s : RouterState) : ℕ := s.tools.length

/-- `UnifiedSearchService.getToolNames`. -/
def getToolNames (s : RouterState) : List String :=
  s.tools.map ToolDefinition.name

/-! ## Concrete fixtures used by witnesses and counterexamples -/

/-- A parameterless tool. -/
def sampleTool (n d : String) : ToolDefinition :=
  { name := n, description := d, properties := [], required := [] }

/-- Field values of a freshly constructed `EmbeddingSearchEngine`
(default model name, `rich` format, empty index). -/
def embeddingEmpty : EmbeddingState :=
  { indexedTools := [], tools := [], initialized := false,
    currentModel := "nomic-embed-text-v2-moe",
    currentFormat := EmbeddingFormat.rich }

/-- A six-tool corpus. -/
def sixTools : List ToolDefinition :=
  [sampleTool "alpha_one" "first tool", sampleTool "beta_two" "second tool",
   sampleTool "gamma_three" "third tool", sampleTool "delta_four" "fourth tool",
   sampleTool "epsilon_five" "fifth tool", sampleTool "zeta_six" "sixth tool"]

/-- A router with only a BM25 engine, initialized on `sixTools`, with
default method `bm25`. -/
def sixToolRouter : RouterState :=
  { bm25Engine := some (bm25Initialize (fun x => x) bm25Empty sixTools none),
    regexEngine := none, embeddingEngine := none,
    defaultMethod := SearchMethod.bm25, tools := sixTools }

/-- A router with only a (never yet initialized) embedding engine. -/
def embeddingOnlyRouter : RouterState :=
  { bm25Engine := none, regexEngine := none,
    embeddingEngine := some embeddingEmpty,
    defaultMethod := SearchMethod.embedding, tools := [] }

/-- The number of results of a successful router search. -/
def okResultsLength : Except String (List SearchResult × SearchMethod) → Option ℕ
  | Except.ok rm => some rm.1.length
  | Except.error _ => none

/-- Two concrete index entries differing only in the frequency of
`"alpha"` (1 vs 2) at equal stored length. -/
def c7Doc1 : IndexedDocument :=
  { tool := sampleTool "alpha" "a", tokens := ["alpha"],
    termFrequencies := fun t => if t = "alpha" then 1 else 0, length := 3 }

/-- Companion to `c7Doc1` with the higher frequency. -/
def c7Doc2 : IndexedDocument :=
  { tool := sampleTool "alpha" "a", tokens := ["alpha"],
    termFrequencies := fun t => if t = "alpha" then 2 else 0, length := 3 }

/-- A one-tool BM25 index (sorting a singleton involves no score
comparison, so the concrete instance evaluates without rational
arithmetic in the kernel). -/
def oneToolBM25 : BM25State :=
  bm25Initialize (fun x => x) bm25Empty [sampleTool "read_file" "read a file"] none

/-- A one-tool regex index. -/
def oneToolRegex : RegexState :=
  regexInitialize [sampleTool "read_file" "read a file"]

/-- A one-vector embedding index marked initialized. -/
def oneToolEmbedding : EmbeddingState :=
  { indexedTools := [{ tool := sampleTool "read_file" "read a file",
                       embedding := [1], formattedText := "t" }],
    tools := [sampleTool "read_file" "read a file"], initialized := true,
    currentModel := "m", currentFormat := EmbeddingFormat.rich }

/-- The scores list the embedding engine computes on `oneToolEmbedding`
for the query vector `[2]`. -/
def oneToolEmbeddingResults : List SearchResult :=
  match embeddingScores (fun x => x) [2] oneToolEmbedding.indexedTools with
  | Except.ok rs => rs
  | Except.error _ => []

/-- A one-tool regex corpus for the C4 instances. -/
def c4Regex : RegexState :=
  regexInitialize [sampleTool "read_file" "read a file"]

/-! ## Theorems -/

theorem map_snd_withIdx (l : List SearchResult) : ∀ i, (withIdx i l).map Prod.snd = l := by
  induction l with
  | nil => intro i; rfl
  | cons r rs ih => intro i; simp [withIdx, ih]

theorem mem_withIdx_le {p : ℕ × SearchResult} :
    ∀ {i : ℕ} {l : List SearchResult}, p ∈ withIdx i l → i ≤ p.1 := by
  intro i l
  induction l generalizing i with
  | nil => intro h; simp [withIdx] at h
  | cons r rs ih =>
    intro h
    rcases List.mem_cons.mp h with h1 | h2
    · subst h1; exact le_refl _
    · exact le_trans (Nat.le_succ i) (ih h2)

theorem pairwise_withIdx (l : List SearchResult) :
    ∀ i, (withIdx i l).Pairwise (fun a b => a.1 < b.1) := by
  induction l with
  | nil => intro i; exact List.Pairwise.nil
  | cons r rs ih =>
    intro i
    refine List.Pairwise.cons ?_ (ih (i + 1))
    intro p hp
    exact lt_of_lt_of_le (Nat.lt_succ_self i) (mem_withIdx_le hp)

theorem length_withIdx (l : List SearchResult) : ∀ i, (withIdx i l).length = l.length := by
  induction l with
  | nil => intro i; rfl
  | cons r rs ih => intro i; simp [withIdx, ih]

theorem mem_insertDesc {z x : ℕ × SearchResult} :
    ∀ {l : List (ℕ × SearchResult)}, z ∈ insertDesc x l → z = x ∨ z ∈ l := by
  intro l
  induction l with
  | nil => intro h; simp [insertDesc] at h; exact Or.inl h
  | cons y ys ih =>
    intro h
    by_cases hc : x.2.score < y.2.score
    · simp only [insertDesc, if_pos hc] at h
      rcases List.mem_cons.mp h with h1 | h2
      · exact Or.inr (by simp [h1])
      · rcases ih h2 with h3 | h4
        · exact Or.inl h3
        · exact Or.inr (List.mem_cons_of_mem _ h4)
    · simp only [insertDesc, if_neg hc] at h
      rcases List.mem_cons.mp h with h1 | h2
      · exact Or.inl h1
      · exact Or.inr h2

theorem mem_stableSortDesc {z : ℕ × SearchResult} :
    ∀ {l : List (ℕ × SearchResult)}, z ∈ stableSortDesc l → z ∈ l := by
  intro l
  induction l with
  | nil => intro h; simp [stableSortDesc] at h
  | cons x xs ih =>
    intro h
    rcases mem_insertDesc h with h1 | h2
    · simp [h1]
    · exact List.mem_cons_of_mem _ (ih h2)

theorem pairwise_insertDesc {x : ℕ × SearchResult} :
    ∀ {l : List (ℕ × SearchResult)}, l.Pairwise rankLE →
      (∀ y ∈ l, x.1 < y.1) → (insertDesc x l).Pairwise rankLE := by
  intro l
  induction l with
  | nil => intro _ _; simp [insertDesc, List.Pairwise.nil]
  | cons y ys ih =>
    intro hp hidx
    rcases List.pairwise_cons.mp hp with ⟨hy, hys⟩
    by_cases hc : x.2.score < y.2.score
    · simp only [insertDesc, if_pos hc]
      refine List.pairwise_cons.mpr ⟨?_, ih hys (fun z hz => hidx z (List.mem_cons_of_mem _ hz))⟩
      intro z hz
      rcases mem_insertDesc hz with h1 | h2
      · subst h1; exact Or.inl hc
      · exact hy z h2
    · simp only [insertDesc, if_neg hc]
      push_neg at hc
      refine List.pairwise_cons.mpr ⟨?_, hp⟩
      intro z hz
      rcases List.mem_cons.mp hz with h1 | h2
      · subst h1
        rcases lt_or_eq_of_le hc with h3 | h3
        · exact Or.inl h3
        · exact Or.inr ⟨h3.symm, hidx z (List.mem_cons_self _ _)⟩
      · have hyz := hy z h2
        have hzy : z.2.score ≤ y.2.score := by
          rcases hyz with h3 | h3
          · exact le_of_lt h3
          · exact le_of_eq h3.1.symm
        have hzx : z.2.score ≤ x.2.score := le_trans hzy hc
        rcases lt_or_eq_of_le hzx with h3 | h3
        · exact Or.inl h3
        · exact Or.inr ⟨h3.symm, hidx z (List.mem_cons_of_mem _ h2)⟩

theorem pairwise_stableSortDesc :
    ∀ {l : List (ℕ × SearchResult)}, l.Pairwise (fun a b => a.1 < b.1) →
      (stableSortDesc l).Pairwise rankLE := by
  intro l
  induction l with
  | nil => intro _; exact List.Pairwise.nil
  | cons x xs ih =>
    intro hp
    rcases List.pairwise_cons.mp hp with ⟨hx, hxs⟩
    exact pairwise_insertDesc (ih hxs) (fun y hy => hx y (mem_stableSortDesc hy))

theorem length_insertDesc (x : ℕ × SearchResult) :
    ∀ (l : List (ℕ × SearchResult)), (insertDesc x l).length = l.length + 1 := by
  intro l
  induction l with
  | nil => rfl
  | cons y ys ih =>
    by_cases hc : x.2.score < y.2.score
    · simp [insertDesc, if_pos hc, ih]
    · simp [insertDesc, if_neg hc]

theorem length_stableSortDesc :
    ∀ (l : List (ℕ × SearchResult)), (stableSortDesc l).length = l.length := by
  intro l
  induction l with
  | nil => rfl
  | cons x xs ih => simp [stableSortDesc, length_insertDesc, ih]

theorem pairwise_rankResults (rs : List SearchResult) :
    (rankResults rs).Pairwise rankLE :=
  pairwise_stableSortDesc (pairwise_withIdx rs 0)

theorem length_jsSortDesc (rs : List SearchResult) : (jsSortDesc rs).length = rs.length := by
  unfold jsSortDesc rankResults
  rw [List.length_map, length_stableSortDesc, length_withIdx]

theorem pairwise_jsSortDesc (rs : List SearchResult) :
    (jsSortDesc rs).Pairwise (fun a b => b.score ≤ a.score) := by
  unfold jsSortDesc
  refine List.Pairwise.map Prod.snd ?_ (pairwise_rankResults rs)
  intro a b hab
  rcases hab with h | h
  · exact le_of_lt h
  · exact le_of_eq h.1.symm

/-! ## C5 — BM25 initialize on an empty corpus -/

/-- C5 counterexample: the claim says the stored average document length
defaults to a safe **nonzero** value when `initialize` is called with an
empty tool list; in fact `avgDocLength = 0 / max(0, 1) = 0`. -/
theorem c5_avgDocLength_zero_on_empty_corpus :
    (bm25Initialize (fun x => x) bm25Empty [] none).avgDocLength = 0 := by
  simp [bm25Initialize]

/-- C5 (amended): initializing the BM25 engine with an empty tool list
stores `avgDocLength = 0` (the `max(N, 1)` guard only keeps the divisor
of the average nonzero), and no division by zero happens in subsequent
scoring because there are no documents to score: every later search
returns `ok []`. -/
theorem c5_empty_corpus_safe (log : ℚ → ℚ) (s0 : BM25State)
    (config : Option SearchEngineConfig) (query : String) (topK : ℕ) :
    (bm25Initialize log s0 [] config).avgDocLength = 0 ∧
    bm25Search (bm25Initialize log s0 [] config) query topK = Except.ok [] := by
  constructor
  · simp [bm25Initialize]
  · simp [bm25Search, bm25Initialize, bm25Ranked, bm25AllResults, rankResults,
      withIdx, stableSortDesc]

/-! ## C9 — the router treats a falsy `topK` as absent -/

/-- C9: `const topK = request.topK || 5` makes `topK = 0` behave exactly
like an absent `topK` (both resolve to the default 5), and a concrete
`topK = 0` search over a six-tool BM25 corpus returns 5 results, not an
empty list. -/
theorem c9_falsy_topK_defaults_to_five :
    (∀ (sqrt : ℚ → ℚ) (s : RouterState) (q : String) (m : Option SearchMethod)
        (qe : Except String (List ℚ)),
      routerSearch sqrt s { query := q, topK := some 0, method := m } qe
        = routerSearch sqrt s { query := q, topK := none, method := m } qe) ∧
    okResultsLength (routerSearch (fun x => x) sixToolRouter
      { query := "alpha one", topK := some 0, method := some SearchMethod.bm25 }
      (Except.error "unused")) = some 5 := by
  constructor
  · intro sqrt s q m qe
    rfl
  · have h1 : routerSearch (fun x => x) sixToolRouter
        { query := "alpha one", topK := some 0, method := some SearchMethod.bm25 }
        (Except.error "unused")
        = Except.ok
            ((((bm25Ranked (bm25Initialize (fun x => x) bm25Empty sixTools none)
                "alpha one").map Prod.snd).take 5), SearchMethod.bm25) := rfl
    rw [h1]
    show some _ = some 5
    congr 1
    rw [List.length_take, List.length_map]
    unfold bm25Ranked rankResults
    rw [length_stableSortDesc, length_withIdx]
    unfold bm25AllResults
    rw [List.length_map]
    simp [bm25Initialize, sixTools]

/-! ## C10 — the router's tools list is assigned before engine failures -/

/-- C10: `UnifiedSearchService.initialize`/`reload` run
`this.tools = tools` before awaiting any engine, so when the embedding
engine's initialization rejects, the error surfaces but `getAllTools`,
`getToolsCount` and `getToolNames` already report the new corpus. -/
theorem c10_tools_not_rolled_back_on_engine_failure
    (log : ℚ → ℚ) (s : RouterState) (tools : List ToolDefinition)
    (config : Option SearchEngineConfig) (e : EmbeddingState) (msg : String)
    (hreg : s.embeddingEngine = some e) :
    (routerInitialize log s tools config (Except.error msg)).2 = some msg ∧
    getAllTools (routerInitialize log s tools config (Except.error msg)).1 = tools ∧
    getToolsCount (routerInitialize log s tools config (Except.error msg)).1
      = tools.length ∧
    getToolNames (routerInitialize log s tools config (Except.error msg)).1
      = tools.map ToolDefinition.name ∧
    (routerReload log s tools config (Except.error msg)).2 = some msg ∧
    getAllTools (routerReload log s tools config (Except.error msg)).1 = tools ∧
    getToolsCount (routerReload log s tools config (Except.error msg)).1
      = tools.length ∧
    getToolNames (routerReload log s tools config (Except.error msg)).1
      = tools.map ToolDefinition.name := by
  refine ⟨?_, ?_, ?_, ?_, ?_, ?_, ?_, ?_⟩ <;>
    simp [routerInitialize, routerReload, hreg, embeddingInitialize,
      embeddingReload, getAllTools, getToolsCount, getToolNames]

/-- Witness for C10 at a concrete router, corpus and provider error. -/
theorem c10_witness :
    (routerInitialize (fun x => x) embeddingOnlyRouter [sampleTool "alpha" "a"]
        none (Except.error "provider down")).2 = some "provider down" ∧
    getAllTools (routerInitialize (fun x => x) embeddingOnlyRouter
        [sampleTool "alpha" "a"] none (Except.error "provider down")).1
      = [sampleTool "alpha" "a"] ∧
    getToolsCount (routerInitialize (fun x => x) embeddingOnlyRouter
        [sampleTool "alpha" "a"] none (Except.error "provider down")).1
      = [sampleTool "alpha" "a"].length ∧
    getToolNames (routerInitialize (fun x => x) embeddingOnlyRouter
        [sampleTool "alpha" "a"] none (Except.error "provider down")).1
      = [sampleTool "alpha" "a"].map ToolDefinition.name ∧
    (routerReload (fun x => x) embeddingOnlyRouter [sampleTool "alpha" "a"]
        none (Except.error "provider down")).2 = some "provider down" ∧
    getAllTools (routerReload (fun x => x) embeddingOnlyRouter
        [sampleTool "alpha" "a"] none (Except.error "provider down")).1
      = [sampleTool "alpha" "a"] ∧
    getToolsCount (routerReload (fun x => x) embeddingOnlyRouter
        [sampleTool "alpha" "a"] none (Except.error "provider down")).1
      = [sampleTool "alpha" "a"].length ∧
    getToolNames (routerReload (fun x => x) embeddingOnlyRouter
        [sampleTool "alpha" "a"] none (Except.error "provider down")).1
      = [sampleTool "alpha" "a"].map ToolDefinition.name :=
  c10_tools_not_rolled_back_on_engine_failure (fun x => x) embeddingOnlyRouter
    [sampleTool "alpha" "a"] none embeddingEmpty "provider down" rfl

/-! ## C8 — cosine similarity is guarded -/

theorem dotProduct_self_nonneg (a : List ℚ) : 0 ≤ dotProduct a a := by
  induction a with
  | nil => simp [dotProduct]
  | cons x xs ih =>
    simp only [dotProduct]
    exact add_nonneg (mul_self_nonneg x) ih

/-- C8: for equal-length vectors, `cosineSimilarity` succeeds and equals
`dot(a,b) / (√‖a‖² · √‖b‖²)` when both norms are nonzero, and 0 when
either norm is zero — the `denominator === 0` guard in the code is
equivalent to the spec's "either norm is 0" condition, and the result is
always a well-defined rational (never NaN).  `sqrt` is any model of
`Math.sqrt` that vanishes exactly at zero on nonnegative inputs. -/
theorem c8_cosine_guard_matches_spec (sqrt : ℚ → ℚ)
    (hsqrt : ∀ x : ℚ, 0 ≤ x → (sqrt x = 0 ↔ x = 0))
    (a b : List ℚ) (hlen : a.length = b.length) :
    cosineSimilarity sqrt a b
      = Except.ok (if dotProduct a a = 0 ∨ dotProduct b b = 0 then 0
          else dotProduct a b / (sqrt (dotProduct a a) * sqrt (dotProduct b b))) := by
  have hA := hsqrt _ (dotProduct_self_nonneg a)
  have hB := hsqrt _ (dotProduct_self_nonneg b)
  have hiff : (sqrt (dotProduct a a) * sqrt (dotProduct b b) = 0)
      ↔ (dotProduct a a = 0 ∨ dotProduct b b = 0) := by
    rw [mul_eq_zero, hA, hB]
  simp only [cosineSimilarity, if_pos hlen]
  congr 1
  by_cases h : dotProduct a a = 0 ∨ dotProduct b b = 0
  · rw [if_pos (hiff.mpr h), if_pos h]
  · rw [if_neg (fun hc => h (hiff.mp hc)), if_neg h]

/-- Witness for C8 at `sqrt = id`, `a = [1, 2]`, `b = [3, 4]`. -/
theorem c8_witness :
    cosineSimilarity (fun x => x) [(1 : ℚ), 2] [3, 4]
      = Except.ok (if dotProduct [(1 : ℚ), 2] [1, 2] = 0 ∨ dotProduct [(3 : ℚ), 4] [3, 4] = 0
          then 0
          else dotProduct [(1 : ℚ), 2] [3, 4]
            / (dotProduct [(1 : ℚ), 2] [1, 2] * dotProduct [(3 : ℚ), 4] [3, 4])) :=
  c8_cosine_guard_matches_spec (fun x => x) (fun _ _ => Iff.rfl) [1, 2] [3, 4] rfl

/-! ## C7 — BM25 term-frequency monotonicity -/

/-- Monotonicity of one term's contribution
`iv * (tf*(k1+1)) / (tf + k1*(1 - b + b*dl/avg))` in `tf`. -/
theorem bm25_term_weight_mono (k1 b avg iv : ℚ) (dl tf1 tf2 : ℕ)
    (hk1 : 0 < k1) (hb0 : 0 ≤ b) (hb1 : b ≤ 1) (havg : 0 ≤ avg) (hiv : 0 ≤ iv)
    (h : tf1 ≤ tf2) :
    (if tf1 = 0 then 0
     else iv * (((tf1 : ℚ) * (k1 + 1)) /
       ((tf1 : ℚ) + k1 * (1 - b + b * (dl : ℚ) / avg))))
    ≤ (if tf2 = 0 then 0
     else iv * (((tf2 : ℚ) * (k1 + 1)) /
       ((tf2 : ℚ) + k1 * (1 - b + b * (dl : ℚ) / avg)))) := by
  have hC : 0 ≤ k1 * (1 - b + b * (dl : ℚ) / avg) := by
    apply mul_nonneg (le_of_lt hk1)
    have h2 : 0 ≤ b * (dl : ℚ) / avg :=
      div_nonneg (mul_nonneg hb0 (Nat.cast_nonneg dl)) havg
    linarith
  by_cases h1 : tf1 = 0
  · rw [if_pos h1]
    by_cases h2 : tf2 = 0
    · rw [if_pos h2]
    · rw [if_neg h2]
      apply mul_nonneg hiv
      apply div_nonneg
      · exact mul_nonneg (Nat.cast_nonneg tf2) (by linarith)
      · have htf2 : (1 : ℚ) ≤ (tf2 : ℚ) := by
          exact_mod_cast Nat.one_le_iff_ne_zero.mpr h2
        linarith
  · have h2 : tf2 ≠ 0 := by
      intro hz
      exact h1 (Nat.le_zero.mp (hz ▸ h))
    rw [if_neg h1, if_neg h2]
    apply mul_le_mul_of_nonneg_left _ hiv
    have htf1 : (1 : ℚ) ≤ (tf1 : ℚ) := by
      exact_mod_cast Nat.one_le_iff_ne_zero.mpr h1
    have htf12 : (tf1 : ℚ) ≤ (tf2 : ℚ) := by exact_mod_cast h
    have hd1 : 0 < (tf1 : ℚ) + k1 * (1 - b + b * (dl : ℚ) / avg) := by linarith
    have hd2 : 0 < (tf2 : ℚ) + k1 * (1 - b + b * (dl : ℚ) / avg) := by linarith
    rw [div_le_div_iff₀ hd1 hd2]
    nlinarith [mul_nonneg (mul_nonneg (by linarith : (0 : ℚ) ≤ k1 + 1) hC)
      (sub_nonneg.mpr htf12)]

/-- Every index `initialize` builds has a nonnegative average document
length (justifying C7's `0 ≤ avg` hypothesis). -/
theorem bm25Initialize_avgDocLength_nonneg (log : ℚ → ℚ) (s0 : BM25State)
    (tools : List ToolDefinition) (config : Option SearchEngineConfig) :
    0 ≤ (bm25Initialize log s0 tools config).avgDocLength := by
  simp only [bm25Initialize]
  exact div_nonneg (Nat.cast_nonneg _) (Nat.cast_nonneg _)

/-- The IDF map `calculateIDF` builds is nonnegative for any logarithm
model that is nonnegative on `[1, ∞)` — as the real `Math.log` is, since
`df ≤ N` makes the argument `(N - df + 0.5)/(df + 0.5) + 1` at least 1
(justifying C7's `0 ≤ idf term` hypothesis). -/
theorem calculateIDF_nonneg (log : ℚ → ℚ)
    (hlog : ∀ x : ℚ, 1 ≤ x → 0 ≤ log x)
    (docs : List IndexedDocument) (t : String) :
    0 ≤ calculateIDF log docs t := by
  unfold calculateIDF
  by_cases h : countDocsContaining t docs = 0
  · rw [if_pos h]
  · rw [if_neg h]
    apply hlog
    have hdfN : countDocsContaining t docs ≤ docs.length := by
      unfold countDocsContaining
      exact List.length_filter_le _ _
    have hcast : ((countDocsContaining t docs : ℚ)) ≤ ((docs.length : ℚ)) := by
      exact_mod_cast hdfN
    have hnn : (0 : ℚ) ≤ (countDocsContaining t docs : ℚ) := Nat.cast_nonneg _
    have h3 : 0 ≤ ((docs.length : ℚ) - (countDocsContaining t docs : ℚ) + 1/2)
        / ((countDocsContaining t docs : ℚ) + 1/2) :=
      div_nonneg (by linarith) (by linarith)
    linarith

/-- C7: with the corpus (hence `idf` and `avgDocLength`) fixed,
`k1 > 0`, `0 ≤ b ≤ 1`, and the document length held fixed, raising one
term's stored frequency never lowers `calculateScore` for any query.
(`avgDocLength ≥ 0` and `idf(term) ≥ 0` hold for every index the code
builds; they are recorded as hypotheses because the two documents are
quantified as arbitrary index entries.) -/
theorem c7_score_monotone_in_tf (k1 b avg : ℚ) (idf : String → ℚ) (term : String)
    (d1 d2 : IndexedDocument) (queryTokens : List String)
    (hk1 : 0 < k1) (hb0 : 0 ≤ b) (hb1 : b ≤ 1) (havg : 0 ≤ avg)
    (hidf : 0 ≤ idf term)
    (hlen : d1.length = d2.length)
    (htf : d1.termFrequencies term ≤ d2.termFrequencies term)
    (hother : ∀ t, t ≠ term → d1.termFrequencies t = d2.termFrequencies t) :
    calculateScore k1 b avg idf d1 queryTokens
      ≤ calculateScore k1 b avg idf d2 queryTokens := by
  induction queryTokens with
  | nil => exact le_refl _
  | cons t ts ih =>
    simp only [calculateScore]
    apply add_le_add _ ih
    by_cases ht : t = term
    · subst ht
      rw [hlen]
      exact bm25_term_weight_mono k1 b avg (idf t) d2.length
        (d1.termFrequencies t) (d2.termFrequencies t) hk1 hb0 hb1 havg hidf htf
    · rw [hother t ht, hlen]

/-- Witness for C7 at concrete parameters and documents. -/
theorem c7_witness :
    calculateScore 1 (1/2) 3 (fun _ => 1) c7Doc1 ["alpha"]
      ≤ calculateScore 1 (1/2) 3 (fun _ => 1) c7Doc2 ["alpha"] :=
  c7_score_monotone_in_tf 1 (1/2) 3 (fun _ => 1) "alpha" c7Doc1 c7Doc2 ["alpha"]
    (by norm_num) (by norm_num) (by norm_num) (by norm_num) (by norm_num)
    rfl (by simp [c7Doc1, c7Doc2]) (fun t ht => by simp [c7Doc1, c7Doc2, ht])

/-! ## C3 — result count is at most `min(topK, corpusSize)` -/

theorem length_rankResults (rs : List SearchResult) :
    (rankResults rs).length = rs.length := by
  unfold rankResults
  rw [length_stableSortDesc, length_withIdx]

theorem length_bm25Ranked (s : BM25State) (q : String) :
    (bm25Ranked s q).length = s.documents.length := by
  unfold bm25Ranked
  rw [length_rankResults]
  unfold bm25AllResults
  rw [List.length_map]

theorem length_regexRanked_le (s : RegexState) (q : String) :
    (regexRanked s q).length ≤ s.documents.length := by
  unfold regexRanked
  have hN : (withIdx 0 (regexAllResults s q)).length = s.documents.length := by
    rw [length_withIdx]
    unfold regexAllResults
    rw [List.length_map]
  by_cases hf : ((withIdx 0 (regexAllResults s q)).filter
      (fun p => decide (0 < p.2.score))).isEmpty
  · rw [if_pos hf]
    exact le_of_eq hN
  · rw [if_neg hf]
    rw [length_stableSortDesc]
    exact le_trans (List.length_filter_le _ _) (le_of_eq hN)

theorem embeddingScores_length (sqrt : ℚ → ℚ) (qe : List ℚ) :
    ∀ {its : List IndexedTool} {rs : List SearchResult},
      embeddingScores sqrt qe its = Except.ok rs → rs.length = its.length := by
  intro its
  induction its with
  | nil =>
    intro rs h
    simp only [embeddingScores] at h
    injection h with h'
    rw [← h']
    rfl
  | cons it its ih =>
    intro rs h
    simp only [embeddingScores] at h
    cases hc : cosineSimilarity sqrt qe it.embedding with
    | error e => rw [hc] at h; exact absurd h (by simp)
    | ok sc =>
      rw [hc] at h
      cases hr : embeddingScores sqrt qe its with
      | error e => rw [hr] at h; exact absurd h (by simp)
      | ok rest =>
        rw [hr] at h
        injection h with h'
        rw [← h', List.length_cons, List.length_cons, ih hr]

/-- C3: for each of the three engines, a successful `search` returns at
most `min(topK, corpusSize)` results, where the corpus size is the
number of indexed documents. -/
theorem c3_results_capped_at_min_topK_corpus :
    (∀ (s : BM25State) (q : String) (k : ℕ) (out : List SearchResult),
        bm25Search s q k = Except.ok out →
          out.length ≤ min k s.documents.length) ∧
    (∀ (s : RegexState) (q : String) (k : ℕ) (out : List SearchResult),
        regexSearch s q k = Except.ok out →
          out.length ≤ min k s.documents.length) ∧
    (∀ (sqrt : ℚ → ℚ) (s : EmbeddingState) (qeE : Except String (List ℚ))
        (k : ℕ) (out : List SearchResult),
        embeddingSearch sqrt s qeE k = Except.ok out →
          out.length ≤ min k s.indexedTools.length) := by
  refine ⟨?_, ?_, ?_⟩
  · intro s q k out h
    by_cases hi : s.initialized
    · simp only [bm25Search, if_pos hi] at h
      injection h with h'
      rw [← h', List.length_take, List.length_map, length_bm25Ranked]
    · simp only [bm25Search, if_neg hi] at h
      exact absurd h (by simp)
  · intro s q k out h
    by_cases hi : s.initialized
    · simp only [regexSearch, if_pos hi] at h
      injection h with h'
      rw [← h', List.length_take, List.length_map]
      exact min_le_min (le_refl k) (length_regexRanked_le s q)
    · simp only [regexSearch, if_neg hi] at h
      exact absurd h (by simp)
  · intro sqrt s qeE k out h
    by_cases hi : s.initialized
    · cases qeE with
      | error e =>
        simp only [embeddingSearch, if_pos hi] at h
        exact absurd h (by simp)
      | ok qe =>
        simp only [embeddingSearch, if_pos hi] at h
        cases hc : embeddingScores sqrt qe s.indexedTools with
        | error e =>
          simp only [hc] at h
          exact absurd h (by simp)
        | ok results =>
          simp only [hc] at h
          injection h with h'
          rw [← h', List.length_take, List.length_map, length_rankResults,
            embeddingScores_length sqrt qe hc]
    · simp only [embeddingSearch, if_neg hi] at h
      exact absurd h (by simp)

/-- Witness for C3: each engine instantiated at a concrete corpus,
query and `topK`. -/
theorem c3_witness :
    (bm25Search (bm25Initialize (fun x => x) bm25Empty sixTools none)
        "alpha" 2).toOption.all (fun out => out.length ≤ min 2 6) = true ∧
    (regexSearch (regexInitialize sixTools) "alpha" 2).toOption.all
        (fun out => out.length ≤ min 2 6) = true ∧
    (embeddingSearch (fun x => x)
        ({ indexedTools := [], tools := [], initialized := true,
           currentModel := "m", currentFormat := EmbeddingFormat.rich })
        (Except.ok [1]) 2).toOption.all (fun out => out.length ≤ min 2 0) = true := by
  have h1 := c3_results_capped_at_min_topK_corpus.1
    (bm25Initialize (fun x => x) bm25Empty sixTools none) "alpha" 2
  have h2 := c3_results_capped_at_min_topK_corpus.2.1 (regexInitialize sixTools) "alpha" 2
  have h3 := c3_results_capped_at_min_topK_corpus.2.2 (fun x => x)
    ({ indexedTools := [], tools := [], initialized := true,
       currentModel := "m", currentFormat := EmbeddingFormat.rich })
    (Except.ok [1]) 2
  refine ⟨?_, ?_, ?_⟩
  · cases hb : bm25Search (bm25Initialize (fun x => x) bm25Empty sixTools none) "alpha" 2 with
    | error e => simp [hb, Except.toOption]
    | ok out =>
      have := h1 out hb
      simp only [hb, Except.toOption, Option.all_some, decide_eq_true_eq]
      have hdocs : (bm25Initialize (fun x => x) bm25Empty sixTools none).documents.length = 6 := by
        simp [bm25Initialize, sixTools]
      rw [hdocs] at this
      exact this
  · cases hb : regexSearch (regexInitialize sixTools) "alpha" 2 with
    | error e => simp [hb, Except.toOption]
    | ok out =>
      have := h2 out hb
      simp only [hb, Except.toOption, Option.all_some, decide_eq_true_eq]
      have hdocs : (regexInitialize sixTools).documents.length = 6 := by
        simp [regexInitialize, sixTools]
      rw [hdocs] at this
      exact this
  · cases hb : embeddingSearch (fun x => x)
        ({ indexedTools := [], tools := [], initialized := true,
           currentModel := "m", currentFormat := EmbeddingFormat.rich } : EmbeddingState)
        (Except.ok [1]) 2 with
    | error e => simp [hb, Except.toOption]
    | ok out =>
      have := h3 out hb
      simp only [hb, Except.toOption, Option.all_some, decide_eq_true_eq]
      exact this

/-! ## C2 — results sorted by score descending, ties in corpus order -/

theorem pairwise_take_map {l : List (ℕ × SearchResult)}
    (h : l.Pairwise rankLE) (k : ℕ) :
    ((l.map Prod.snd).take k).Pairwise (fun a b => b.score ≤ a.score) := by
  have h1 : (l.map Prod.snd).Pairwise
      (fun a b : SearchResult => b.score ≤ a.score) := by
    refine List.Pairwise.map Prod.snd ?_ h
    intro a b hab
    rcases hab with h2 | h2
    · exact le_of_lt h2
    · exact le_of_eq h2.1.symm
  exact List.Pairwise.sublist (List.take_sublist k _) h1

theorem regexCalculateScore_nonneg (d : RegexDoc) (q : String) :
    0 ≤ regexCalculateScore d q := by
  simp only [regexCalculateScore]
  exact div_nonneg (Nat.cast_nonneg _) (Nat.cast_nonneg _)

theorem pairwise_bm25Ranked (s : BM25State) (q : String) :
    (bm25Ranked s q).Pairwise rankLE :=
  pairwise_rankResults (bm25AllResults s q)

theorem pairwise_regexRanked (s : RegexState) (q : String) :
    (regexRanked s q).Pairwise rankLE := by
  unfold regexRanked
  by_cases hf : ((withIdx 0 (regexAllResults s q)).filter
      (fun p => decide (0 < p.2.score))).isEmpty
  · rw [if_pos hf]
    have hnil : (withIdx 0 (regexAllResults s q)).filter
        (fun p => decide (0 < p.2.score)) = [] := List.isEmpty_iff.mp hf
    have hzero : ∀ p ∈ withIdx 0 (regexAllResults s q), p.2.score = 0 := by
      intro p hp
      have hnotpos : ¬ (0 < p.2.score) := by
        have h0 := List.filter_eq_nil_iff.mp hnil p hp
        simpa using h0
      have hmem2 : p.2 ∈ regexAllResults s q := by
        have h1 := List.mem_map_of_mem Prod.snd hp
        rwa [map_snd_withIdx] at h1
      rcases List.mem_map.mp hmem2 with ⟨d, _, hpd⟩
      have hge : 0 ≤ p.2.score := by
        rw [← hpd]
        exact regexCalculateScore_nonneg d q
      exact le_antisymm (not_lt.mp hnotpos) hge
    refine (pairwise_withIdx _ 0).imp_of_mem ?_
    intro a b ha hb hab
    exact Or.inr ⟨(hzero a ha).trans (hzero b hb).symm, hab⟩
  · rw [if_neg hf]
    exact pairwise_stableSortDesc ((pairwise_withIdx _ 0).filter _)

/-- C2: for each engine, a successful `search` returns the stable
score-descending ranking truncated to `topK`: the decorated ranking is
pairwise ordered by (score strictly greater) or (equal score and
smaller original corpus position), and the returned list has
non-increasing scores. -/
theorem c2_sorted_stable_per_engine :
    (∀ (s : BM25State) (q : String) (k : ℕ) (out : List SearchResult),
        bm25Search s q k = Except.ok out →
          out = ((bm25Ranked s q).map Prod.snd).take k ∧
          (bm25Ranked s q).Pairwise rankLE ∧
          out.Pairwise (fun a b => b.score ≤ a.score)) ∧
    (∀ (s : RegexState) (q : String) (k : ℕ) (out : List SearchResult),
        regexSearch s q k = Except.ok out →
          out = ((regexRanked s q).map Prod.snd).take k ∧
          (regexRanked s q).Pairwise rankLE ∧
          out.Pairwise (fun a b => b.score ≤ a.score)) ∧
    (∀ (sqrt : ℚ → ℚ) (s : EmbeddingState) (qe : List ℚ) (k : ℕ)
        (results out : List SearchResult),
        embeddingScores sqrt qe s.indexedTools = Except.ok results →
        embeddingSearch sqrt s (Except.ok qe) k = Except.ok out →
          out = ((rankResults results).map Prod.snd).take k ∧
          (rankResults results).Pairwise rankLE ∧
          out.Pairwise (fun a b => b.score ≤ a.score)) := by
  refine ⟨?_, ?_, ?_⟩
  · intro s q k out h
    by_cases hi : s.initialized
    · simp only [bm25Search, if_pos hi] at h
      injection h with h'
      refine ⟨h'.symm, pairwise_bm25Ranked s q, ?_⟩
      rw [← h']
      exact pairwise_take_map (pairwise_bm25Ranked s q) k
    · simp only [bm25Search, if_neg hi] at h
      exact absurd h (by simp)
  · intro s q k out h
    by_cases hi : s.initialized
    · simp only [regexSearch, if_pos hi] at h
      injection h with h'
      refine ⟨h'.symm, pairwise_regexRanked s q, ?_⟩
      rw [← h']
      exact pairwise_take_map (pairwise_regexRanked s q) k
    · simp only [regexSearch, if_neg hi] at h
      exact absurd h (by simp)
  · intro sqrt s qe k results out hs h
    by_cases hi : s.initialized
    · simp only [embeddingSearch, if_pos hi] at h
      simp only [hs] at h
      injection h with h'
      refine ⟨h'.symm, pairwise_rankResults results, ?_⟩
      rw [← h']
      exact pairwise_take_map (pairwise_rankResults results) k
    · simp only [embeddingSearch, if_neg hi] at h
      exact absurd h (by simp)

/-- Witness for C2 at concrete one-document corpora. -/
theorem c2_witness :
    ((((bm25Ranked oneToolBM25 "file").map Prod.snd).take 2).Pairwise
      (fun a b => b.score ≤ a.score)) ∧
    ((((regexRanked oneToolRegex "file").map Prod.snd).take 2).Pairwise
      (fun a b => b.score ≤ a.score)) ∧
    ((((rankResults oneToolEmbeddingResults).map Prod.snd).take 2).Pairwise
      (fun a b => b.score ≤ a.score)) :=
  ⟨(c2_sorted_stable_per_engine.1 oneToolBM25 "file" 2
      (((bm25Ranked oneToolBM25 "file").map Prod.snd).take 2) rfl).2.2,
   (c2_sorted_stable_per_engine.2.1 oneToolRegex "file" 2
      (((regexRanked oneToolRegex "file").map Prod.snd).take 2) rfl).2.2,
   (c2_sorted_stable_per_engine.2.2 (fun x => x) oneToolEmbedding [2] 2
      oneToolEmbeddingResults
      (((rankResults oneToolEmbeddingResults).map Prod.snd).take 2)
      (by rfl) (by rfl)).2.2⟩

/-! ## C4 — the heuristic ranker's all-zero-score fallback -/

/-- C4 (amended): when every document scores 0 for the query, the regex
ranker's `search` falls back to the first `topK` documents in original
corpus order — i.e. `min(topK, corpusSize)` results; this is nonempty
whenever `topK ≥ 1` and the corpus is nonempty, and the search reports
no error on an initialized engine. -/
theorem c4_all_zero_returns_corpus_prefix (s : RegexState) (query : String)
    (topK : ℕ) (hinit : s.initialized = true)
    (hzero : ∀ d ∈ s.documents, regexCalculateScore d query = 0) :
    regexSearch s query topK = Except.ok ((regexAllResults s query).take topK) ∧
    (1 ≤ topK → s.documents ≠ [] → (regexAllResults s query).take topK ≠ []) := by
  have hfilter : (withIdx 0 (regexAllResults s query)).filter
      (fun p => decide (0 < p.2.score)) = [] := by
    rw [List.filter_eq_nil_iff]
    intro p hp
    have hmem2 : p.2 ∈ regexAllResults s query := by
      have h1 := List.mem_map_of_mem Prod.snd hp
      rwa [map_snd_withIdx] at h1
    rcases List.mem_map.mp hmem2 with ⟨d, hd, hpd⟩
    have hsc : p.2.score = 0 := by
      rw [← hpd]
      exact hzero d hd
    simp [hsc]
  have hranked : regexRanked s query = withIdx 0 (regexAllResults s query) := by
    simp only [regexRanked, hfilter, List.isEmpty_nil, if_true]
  constructor
  · simp only [regexSearch, if_pos hinit, hranked, map_snd_withIdx]
  · intro hk hne hcontra
    have hlen := congrArg List.length hcontra
    rw [List.length_take] at hlen
    have hN : (regexAllResults s query).length = s.documents.length := by
      unfold regexAllResults
      rw [List.length_map]
    rw [hN] at hlen
    simp only [List.length_nil] at hlen
    rcases Nat.min_eq_zero_iff.mp hlen with h0 | h0
    · omega
    · exact hne (List.length_eq_zero.mp h0)

/-- C4 counterexample: on a nonempty corpus where the query `"zzzz"`
scores 0 everywhere, `search` with `topK = 0` returns the empty list —
refuting "it never returns an empty list". -/
theorem c4_counterexample_empty_result :
    (∀ d ∈ c4Regex.documents, regexCalculateScore d "zzzz" = 0) ∧
    regexSearch c4Regex "zzzz" 0 = Except.ok [] := by
  constructor
  · intro d hd
    simp only [c4Regex, regexInitialize, List.map_cons, List.map_nil,
      List.mem_singleton] at hd
    subst hd
    have hraw : regexRawScore (regexDocOf (sampleTool "read_file" "read a file"))
        "zzzz" = 0 := by decide
    simp [regexCalculateScore, hraw]
  · rfl

/-- Witness for C4 (amended) at the same corpus with `topK = 3`. -/
theorem c4_witness :
    regexSearch c4Regex "zzzz" 3
      = Except.ok ((regexAllResults c4Regex "zzzz").take 3) ∧
    (regexAllResults c4Regex "zzzz").take 3 ≠ [] :=
  have h := c4_all_zero_returns_corpus_prefix c4Regex "zzzz" 3 rfl
    (by
      intro d hd
      simp only [c4Regex, regexInitialize, List.map_cons, List.map_nil,
        List.mem_singleton] at hd
      subst hd
      have hraw : regexRawScore (regexDocOf (sampleTool "read_file" "read a file"))
          "zzzz" = 0 := by decide
      simp [regexCalculateScore, hraw])
  ⟨h.1, h.2 (by norm_num) (by simp [c4Regex, regexInitialize])⟩

/-! ## C6 — token-estimate ordering of the format strategies -/

theorem length_spacedName (s : String) : (spacedName s).length = s.length := by
  simp [spacedName]

theorem length_formatBase (t : ToolDefinition) :
    (formatBase t).length = 2 * t.name.length + 5 + t.description.length := by
  have h1 : (" - " : String).length = 3 := rfl
  have h2 : (": " : String).length = 2 := rfl
  simp only [formatBase, String.length_append, length_spacedName, h1, h2]
  omega

/-- Lifting a character-length bound through `Math.ceil(len/4)`. -/
theorem estimate_mono_of_length_le {t : ToolDefinition} {f g : EmbeddingFormat}
    (h : (formatToolForEmbedding t f).length ≤ (formatToolForEmbedding t g).length) :
    estimateFormatTokens t f ≤ estimateFormatTokens t g :=
  Nat.div_le_div_right (Nat.add_le_add_right h 3)

/-- `joinSep` is length-monotone over elementwise length bounds, for
separators of comparable length. -/
theorem joinSep_length_mono (sep1 sep2 : String) (hsep : sep1.length ≤ sep2.length) :
    ∀ {l1 l2 : List String}, List.Forall₂ (fun a b => a.length ≤ b.length) l1 l2 →
      (joinSep sep1 l1).length ≤ (joinSep sep2 l2).length := by
  intro l1 l2 h
  induction h with
  | nil => exact le_refl _
  | @cons a b l1t l2t ha hrest ih =>
    cases hrest with
    | nil => simpa [joinSep] using ha
    | @cons a2 b2 l1t2 l2t2 hb hrest2 =>
      simp only [joinSep, String.length_append]
      have ih2 := ih
      simp only [joinSep] at ih2
      omega

/-- Under the all-object hypothesis, each property contributes a verbose
rendering at least as long as its key. -/
theorem verboseParamEntries_forall₂ :
    ∀ (props : List (String × PropValue)),
      (∀ kv ∈ props, kv.2 ≠ PropValue.prim) →
      List.Forall₂ (fun (kv : String × PropValue) (e : String) => kv.1.length ≤ e.length)
        props
        (props.filterMap (fun kv =>
          match kv.2 with
          | PropValue.prim => none
          | PropValue.obj none => some kv.1
          | PropValue.obj (some d) =>
            some (if d = "" then kv.1 else kv.1 ++ ": " ++ d))) := by
  intro props
  induction props with
  | nil => intro _; exact List.Forall₂.nil
  | cons kv rest ih =>
    intro hobj
    have hkv := hobj kv (List.mem_cons_self _ _)
    have hrest := fun kv2 h2 => hobj kv2 (List.mem_cons_of_mem _ h2)
    cases hv : kv.2 with
    | prim => exact absurd hv hkv
    | obj o =>
      cases o with
      | none =>
        rw [List.filterMap_cons]
        simp only [hv]
        exact List.Forall₂.cons (le_refl _) (ih hrest)
      | some d =>
        rw [List.filterMap_cons]
        simp only [hv]
        by_cases hd : d = ""
        · rw [if_pos hd]
          exact List.Forall₂.cons (le_refl _) (ih hrest)
        · rw [if_neg hd]
          refine List.Forall₂.cons ?_ (ih hrest)
          have h2 : (": " : String).length = 2 := rfl
          simp only [String.length_append, h2]
          omega

/-- C6 counterexample: `formatRich` lists every property key while
`formatVerbose` skips properties whose schema value is not an object,
so a tool with one long-named non-object property has a strictly larger
estimate for `rich` than for `verbose` — refuting
`rich ≤ verbose` (hence the claimed chain) for that tool. -/
theorem c6_counterexample_rich_exceeds_verbose :
    estimateFormatTokens
        { name := "t", description := "d",
          properties := [("alongparametername", PropValue.prim)],
          required := [] } EmbeddingFormat.verbose
      < estimateFormatTokens
        { name := "t", description := "d",
          properties := [("alongparametername", PropValue.prim)],
          required := [] } EmbeddingFormat.rich := by
  decide

/-- C6 (amended): for tools whose property values are all schema
objects (as JSON Schema prescribes — the case `formatVerbose` renders),
the estimated token count is monotone over
`minimal ≤ standard ≤ rich ≤ verbose`. -/
theorem c6_estimate_monotone_for_object_params (t : ToolDefinition)
    (hobj : ∀ kv ∈ t.properties, kv.2 ≠ PropValue.prim) :
    estimateFormatTokens t EmbeddingFormat.minimal
        ≤ estimateFormatTokens t EmbeddingFormat.standard ∧
    estimateFormatTokens t EmbeddingFormat.standard
        ≤ estimateFormatTokens t EmbeddingFormat.rich ∧
    estimateFormatTokens t EmbeddingFormat.rich
        ≤ estimateFormatTokens t EmbeddingFormat.verbose := by
  have h2 : (": " : String).length = 2 := rfl
  have hP : (". Parameters: " : String).length = 14 := rfl
  refine ⟨estimate_mono_of_length_le ?_, estimate_mono_of_length_le ?_,
    estimate_mono_of_length_le ?_⟩
  · show (formatMinimal t).length ≤ (formatStandard t).length
    simp only [formatMinimal, formatStandard, String.length_append,
      length_spacedName, h2]
    omega
  · show (formatStandard t).length ≤ (formatRich t).length
    have hstd : (formatStandard t).length
        = t.name.length + 2 + t.description.length := by
      simp only [formatStandard, String.length_append, length_spacedName, h2]
    have hbase := length_formatBase t
    unfold formatRich
    by_cases hp : joinSep ", " (t.properties.map Prod.fst) = ""
    · rw [if_pos hp, hstd, hbase]
      omega
    · rw [if_neg hp]
      simp only [String.length_append, hbase, hstd, hP]
      omega
  · show (formatRich t).length ≤ (formatVerbose t).length
    have hbase := length_formatBase t
    have hf2 := verboseParamEntries_forall₂ t.properties hobj
    have hkeys : List.Forall₂ (fun (a b : String) => a.length ≤ b.length)
        (t.properties.map Prod.fst) (verboseParamEntries t) := by
      rw [List.forall₂_map_left_iff]
      exact hf2
    have hjoin := joinSep_length_mono ", " "; " (by decide) hkeys
    unfold formatRich formatVerbose
    by_cases hp : joinSep ", " (t.properties.map Prod.fst) = ""
    · rw [if_pos hp]
      by_cases he : (verboseParamEntries t).isEmpty
      · rw [if_pos he]
      · rw [if_neg he]
        simp only [String.length_append]
        omega
    · rw [if_neg hp]
      have hprops : t.properties ≠ [] := by
        intro h0
        apply hp
        rw [h0]
        rfl
      have hentries : ¬ (verboseParamEntries t).isEmpty := by
        intro he
        have hnil := List.isEmpty_iff.mp he
        have hlen := hkeys.length_eq
        rw [hnil, List.length_map, List.length_nil] at hlen
        exact hprops (List.length_eq_zero.mp hlen)
      rw [if_neg hentries]
      simp only [String.length_append]
      omega

/-- Witness for C6 (amended) at a tool whose only property value is a
schema object. -/
theorem c6_witness :
    estimateFormatTokens
        { name := "read_file", description := "reads a file",
          properties := [("path", PropValue.obj (some "file path"))],
          required := [] } EmbeddingFormat.minimal
      ≤ estimateFormatTokens
        { name := "read_file", description := "reads a file",
          properties := [("path", PropValue.obj (some "file path"))],
          required := [] } EmbeddingFormat.standard ∧
    estimateFormatTokens
        { name := "read_file", description := "reads a file",
          properties := [("path", PropValue.obj (some "file path"))],
          required := [] } EmbeddingFormat.standard
      ≤ estimateFormatTokens
        { name := "read_file", description := "reads a file",
          properties := [("path", PropValue.obj (some "file path"))],
          required := [] } EmbeddingFormat.rich ∧
    estimateFormatTokens
        { name := "read_file", description := "reads a file",
          properties := [("path", PropValue.obj (some "file path"))],
          required := [] } EmbeddingFormat.rich
      ≤ estimateFormatTokens
        { name := "read_file", description := "reads a file",
          properties := [("path", PropValue.obj (some "file path"))],
          required := [] } EmbeddingFormat.verbose :=
  c6_estimate_monotone_for_object_params
    { name := "read_file", description := "reads a file",
      properties := [("path", PropValue.obj (some "file path"))],
      required := [] } (by decide)

/-! ## C1 — the BM25 score matches the spec formula -/

theorem specDf_map_tokens (t : String) (docs : List IndexedDocument) :
    specDf t (docs.map IndexedDocument.tokens) = countDocsContaining t docs := by
  unfold specDf countDocsContaining
  induction docs with
  | nil => rfl
  | cons d ds ih =>
    simp only [List.map_cons, List.filter_cons]
    by_cases hc : d.tokens.contains t
    · simp only [hc, if_true, List.length_cons, ih]
    · simp only [hc, Bool.false_eq_true, if_false, ih]

theorem countDocsContaining_ne_zero {t : String} {d : IndexedDocument}
    {docs : List IndexedDocument} (hd : d ∈ docs) (ht : t ∈ d.tokens) :
    countDocsContaining t docs ≠ 0 := by
  unfold countDocsContaining
  have hmem : d ∈ docs.filter (fun d => d.tokens.contains t) :=
    List.mem_filter.mpr ⟨hd, by simpa using ht⟩
  intro h0
  rw [List.length_eq_zero.mp h0] at hmem
  exact absurd hmem (List.not_mem_nil d)

/-- The score recursion agrees with the spec-side sum for any document
whose stored frequency map and length agree with its token list, when
the IDF map is the one `calculateIDF` builds from the corpus. -/
theorem calculateScore_eq_specScore (log : ℚ → ℚ) (k1 b avg : ℚ)
    (docs : List IndexedDocument) (d : IndexedDocument) (hd : d ∈ docs)
    (htf : ∀ t, d.termFrequencies t = d.tokens.count t)
    (hlen : d.length = d.tokens.length) :
    ∀ (qts : List String),
      calculateScore k1 b avg (calculateIDF log docs) d qts
        = bm25SpecScore log k1 b avg (docs.map IndexedDocument.tokens)
            d.tokens qts := by
  intro qts
  induction qts with
  | nil => simp [calculateScore, bm25SpecScore]
  | cons t ts ih =>
    have hspec : bm25SpecScore log k1 b avg (docs.map IndexedDocument.tokens)
        d.tokens (t :: ts)
        = bm25SpecTermScore log k1 b avg (docs.map IndexedDocument.tokens)
            d.tokens t
          + bm25SpecScore log k1 b avg (docs.map IndexedDocument.tokens)
              d.tokens ts := by
      simp [bm25SpecScore]
    rw [hspec]
    simp only [calculateScore]
    rw [ih]
    congr 1
    by_cases htf0 : d.termFrequencies t = 0
    · rw [if_pos htf0]
      have hcount : d.tokens.count t = 0 := by rw [← htf t]; exact htf0
      simp only [bm25SpecTermScore]
      rw [if_pos hcount]
    · rw [if_neg htf0]
      have hcount : d.tokens.count t ≠ 0 := by rw [← htf t]; exact htf0
      have htmem : t ∈ d.tokens :=
        List.count_pos_iff.mp (Nat.pos_of_ne_zero hcount)
      have hdf : countDocsContaining t docs ≠ 0 :=
        countDocsContaining_ne_zero hd htmem
      simp only [bm25SpecTermScore]
      rw [if_neg hcount]
      unfold calculateIDF specIdf
      rw [if_neg hdf, specDf_map_tokens, List.length_map, htf t, hlen]

/-- C1: on any index built by `BM25SearchEngine.initialize`, the score
`calculateScore` computes for a document and a tokenized query equals
the specification's sum
`Σ idf(term) * (tf*(k1+1)) / (tf + k1*(1 - b + b*docLen/avgDocLen))`
over the query's tokens, with absent terms contributing zero and
`idf(term) = ln((N - df + 0.5)/(df + 0.5) + 1)` taken over the indexed
corpus (`N` = document count, `df` = documents containing the term). -/
theorem c1_bm25_score_matches_spec (log : ℚ → ℚ) (s0 : BM25State)
    (tools : List ToolDefinition) (config : Option SearchEngineConfig)
    (d : IndexedDocument) (query : String)
    (hd : d ∈ (bm25Initialize log s0 tools config).documents) :
    calculateScore (bm25Initialize log s0 tools config).k1
        (bm25Initialize log s0 tools config).b
        (bm25Initialize log s0 tools config).avgDocLength
        (bm25Initialize log s0 tools config).idf d (tokenize query)
      = bm25SpecScore log (bm25Initialize log s0 tools config).k1
          (bm25Initialize log s0 tools config).b
          (bm25Initialize log s0 tools config).avgDocLength
          ((bm25Initialize log s0 tools config).documents.map
            IndexedDocument.tokens)
          d.tokens (tokenize query) := by
  have hdocs : (bm25Initialize log s0 tools config).documents
      = tools.map mkIndexedDocument := by
    simp [bm25Initialize]
  have hidf : (bm25Initialize log s0 tools config).idf
      = calculateIDF log (tools.map mkIndexedDocument) := by
    simp [bm25Initialize]
  rw [hdocs] at hd
  rcases List.mem_map.mp hd with ⟨tool, htool, hdm⟩
  have htf : ∀ t, d.termFrequencies t = d.tokens.count t := by
    intro t
    rw [← hdm]
    simp [mkIndexedDocument]
  have hlen : d.length = d.tokens.length := by
    rw [← hdm]
    simp [mkIndexedDocument]
  rw [hdocs, hidf]
  exact calculateScore_eq_specScore log _ _ _ (tools.map mkIndexedDocument) d
    hd htf hlen (tokenize query)

/-- Witness for C1 at a concrete one-tool corpus and query. -/
theorem c1_witness :
    calculateScore (bm25Initialize (fun x => x) bm25Empty
          [sampleTool "read_file" "read a file"] none).k1
        (bm25Initialize (fun x => x) bm25Empty
          [sampleTool "read_file" "read a file"] none).b
        (bm25Initialize (fun x => x) bm25Empty
          [sampleTool "read_file" "read a file"] none).avgDocLength
        (bm25Initialize (fun x => x) bm25Empty
          [sampleTool "read_file" "read a file"] none).idf
        (mkIndexedDocument (sampleTool "read_file" "read a file"))
        (tokenize "file")
      = bm25SpecScore (fun x => x)
          (bm25Initialize (fun x => x) bm25Empty
            [sampleTool "read_file" "read a file"] none).k1
          (bm25Initialize (fun x => x) bm25Empty
            [sampleTool "read_file" "read a file"] none).b
          (bm25Initialize (fun x => x) bm25Empty
            [sampleTool "read_file" "read a file"] none).avgDocLength
          ((bm25Initialize (fun x => x) bm25Empty
            [sampleTool "read_file" "read a file"] none).documents.map
              IndexedDocument.tokens)
          (mkIndexedDocument (sampleTool "read_file" "read a file")).tokens
          (tokenize "file") :=
  c1_bm25_score_matches_spec (fun x => x) bm25Empty
    [sampleTool "read_file" "read a file"] none
    (mkIndexedDocument (sampleTool "read_file" "read a file")) "file"
    (by simp [bm25Initialize])

end ToolSearch

